import Mathlib

/-!
# prodsys configuration loader — formal model

Shallow embedding of `src/prodsim/adapters/adapter.py`: the configuration
graph loader and referential-integrity validator (pydantic `Adapter` /
`JsonAdapter`).  Entity record shapes come from the repository's
`prodsim.data_structures` module, which is not part of the provided
sources; those shapes are modelled from the spec's data-model table (§3).
All loader and validator logic is translated from `adapter.py` itself.
-/

set_option maxHeartbeats 1600000

/-- Modelled from the spec: `time_model_data.TIME_MODEL_DATA` (module not in
src/).  A time model is a leaf entity: an ID plus kind-specific parameters.
The loader's checks only ever read the `ID` field, so the kind-specific
parameter payload is not represented. -/
structure TimeModelData where
  ID : String
deriving Repr, DecidableEq

/-- Modelled from the spec: `state_data.STATE_DATA_UNION` (module not in
src/): an ID plus a `time_model_id` reference.  The validator in
`adapter.py` reads exactly these two fields. -/
structure StateData where
  ID : String
  time_model_id : String
deriving Repr, DecidableEq

/-- Modelled from the spec: `processes_data.PROCESS_DATA_UNION` (module not
in src/): an ID plus a `time_model_id` reference. -/
structure ProcessData where
  ID : String
  time_model_id : String
deriving Repr, DecidableEq

/-- Modelled from the spec: `queue_data.QueueData` (module not in src/):
a leaf entity with an ID and a capacity. -/
structure QueueData where
  ID : String
  capacity : Nat
deriving Repr, DecidableEq

/-- Modelled from the spec: `resource_data.RESOURCE_DATA_UNION` (module not
in src/).  A resource is polymorphic: a base shape carrying `processes` and
`states` reference lists, and a production-capable variant
(`ProductionResourceData`) that additionally carries `input_queues` and
`output_queues`.  `adapter.py` dispatches on
`isinstance(resource, ProductionResourceData)`. -/
inductive ResourceData where
  | base (ID : String) (processes : List String) (states : List String)
  | production (ID : String) (processes : List String) (states : List String)
      (input_queues : List String) (output_queues : List String)
deriving Repr, DecidableEq

def ResourceData.ID : ResourceData → String
  | .base i _ _ => i
  | .production i _ _ _ _ => i

def ResourceData.processes : ResourceData → List String
  | .base _ p _ => p
  | .production _ p _ _ _ => p

def ResourceData.states : ResourceData → List String
  | .base _ _ s => s
  | .production _ _ s _ _ => s

/-- Modelled from the spec: `material_data.MaterialData` (module not in
src/): an ID, a `transport_process` reference, and an *optional*
`processes` reference list (`None` in Python when absent;
`adapter.py` guards the per-entry check with `isinstance(..., list)`). -/
structure MaterialData where
  ID : String
  transport_process : String
  processes : Option (List String)
deriving Repr, DecidableEq

/-- Modelled from the spec: `sink_data.SinkData` (module not in src/):
an ID, a `material_type` reference and an `input_queues` reference list. -/
structure SinkData where
  ID : String
  material_type : String
  input_queues : List String
deriving Repr, DecidableEq

/-- Modelled from the spec: `source_data.SourceData` (module not in src/):
an ID, a `time_model_id` reference, a `material_type` reference and an
`output_queues` reference list. -/
structure SourceData where
  ID : String
  time_model_id : String
  material_type : String
  output_queues : List String
deriving Repr, DecidableEq

/-- Errors the loader can fail with.  `missingSection` embeds the `KeyError`
raised by `data["<section>"]` in `JsonAdapter.read_data` when a required
top-level key is absent; `danglingReference` embeds the `ValueError` raised
by the `Adapter` field validators, carrying the data interpolated into the
source's message: the referencing entity's ID, the checked reference field,
the offending target ID, and the set of valid IDs at that point. -/
inductive LoadError where
  | missingSection (name : String)
  | danglingReference (entity : String) (field : String) (target : String)
      (valid : List String)
deriving Repr, DecidableEq

/-- Embeds `get_set_of_IDs` from adapter.py: the set of `obj.ID` over a list of
objects.  Embedded as the list of IDs; only membership is ever used, so
duplicates are immaterial.  `f` plays the role of the `.ID` attribute
access. -/
def get_set_of_IDs (f : α → String) (list_of_objects : List α) : List String :=
  list_of_objects.map f

/-- First element of `refs` that is not a member of `valid`, if any: the
first offender found by a `for r in refs: if r not in valid: raise` loop. -/
def firstDangling (refs valid : List String) : Option String :=
  refs.find? fun r => decide (r ∉ valid)

/-- Embeds `Adapter.check_states`: a state's `time_model_id` must be the ID of a
loaded time model, else a dangling-reference error naming the state, the
offending ID and the valid time-model IDs. -/
def check_states (time_model_data : List TimeModelData) (state : StateData) :
    Except LoadError StateData :=
  let time_models := get_set_of_IDs TimeModelData.ID time_model_data
  if state.time_model_id ∈ time_models then .ok state
  else .error (.danglingReference state.ID "time_model_id" state.time_model_id time_models)

/-- Embeds `Adapter.check_processes`: a process's `time_model_id` must be the ID of
a loaded time model. -/
def check_processes (time_model_data : List TimeModelData) (process : ProcessData) :
    Except LoadError ProcessData :=
  let time_models := get_set_of_IDs TimeModelData.ID time_model_data
  if process.time_model_id ∈ time_models then .ok process
  else .error (.danglingReference process.ID "time_model_id" process.time_model_id time_models)

/-- Embeds `Adapter.check_resources`: every entry of the resource's `processes` and
`states` lists must resolve; a production-capable resource is additionally
checked: every entry of `input_queues + output_queues` must be a loaded
queue ID.  Each loop raises on the first offender. -/
def check_resources (process_data : List ProcessData) (state_data : List StateData)
    (queue_data : List QueueData) (resource : ResourceData) :
    Except LoadError ResourceData :=
  let processes := get_set_of_IDs ProcessData.ID process_data
  match firstDangling resource.processes processes with
  | some p => .error (.danglingReference resource.ID "processes" p processes)
  | none =>
    let states := get_set_of_IDs StateData.ID state_data
    match firstDangling resource.states states with
    | some s => .error (.danglingReference resource.ID "states" s states)
    | none =>
      match resource with
      | .production _ _ _ input_queues output_queues =>
        let queues := get_set_of_IDs QueueData.ID queue_data
        match firstDangling (input_queues ++ output_queues) queues with
        | some q => .error (.danglingReference resource.ID "queues" q queues)
        | none => .ok resource
      | .base _ _ _ => .ok resource

/-- Embeds `Adapter.check_materials`: the material's `transport_process` must
resolve; when the optional `processes` field is a list (not `None`), every
entry must resolve as well. -/
def check_materials (process_data : List ProcessData) (material : MaterialData) :
    Except LoadError MaterialData :=
  let processes := get_set_of_IDs ProcessData.ID process_data
  if material.transport_process ∈ processes then
    match material.processes with
    | some ps =>
      match firstDangling ps processes with
      | some p => .error (.danglingReference material.ID "processes" p processes)
      | none => .ok material
    | none => .ok material
  else
    .error (.danglingReference material.ID "transport_process" material.transport_process processes)

/-- Embeds `Adapter.check_sinks`: the sink's `material_type` must be a loaded
material ID and every entry of `input_queues` a loaded queue ID. -/
def check_sinks (material_data : List MaterialData) (queue_data : List QueueData)
    (sink : SinkData) : Except LoadError SinkData :=
  let materials := get_set_of_IDs MaterialData.ID material_data
  if sink.material_type ∈ materials then
    let queues := get_set_of_IDs QueueData.ID queue_data
    match firstDangling sink.input_queues queues with
    | some q => .error (.danglingReference sink.ID "input_queues" q queues)
    | none => .ok sink
  else
    .error (.danglingReference sink.ID "material_type" sink.material_type materials)

/-- Embeds `Adapter.check_sources`: the source's `time_model_id`, `material_type`
and every entry of `output_queues` must resolve in the time-model, material
and queue collections respectively. -/
def check_sources (time_model_data : List TimeModelData)
    (material_data : List MaterialData) (queue_data : List QueueData)
    (source : SourceData) : Except LoadError SourceData :=
  let time_models := get_set_of_IDs TimeModelData.ID time_model_data
  if source.time_model_id ∈ time_models then
    let materials := get_set_of_IDs MaterialData.ID material_data
    if source.material_type ∈ materials then
      let queues := get_set_of_IDs QueueData.ID queue_data
      match firstDangling source.output_queues queues with
      | some q => .error (.danglingReference source.ID "output_queues" q queues)
      | none => .ok source
    else
      .error (.danglingReference source.ID "material_type" source.material_type materials)
  else
    .error (.danglingReference source.ID "time_model_id" source.time_model_id time_models)

/-- Pydantic's `each_item=True` application of a field validator: run the
validator on every item of the assigned list, propagating the first
failure. -/
def validateEach (check : α → Except LoadError α) : List α → Except LoadError (List α)
  | [] => .ok []
  | x :: xs =>
    match check x with
    | .error e => .error e
    | .ok y =>
      match validateEach check xs with
      | .error e => .error e
      | .ok ys => .ok (y :: ys)

/-- The `Adapter` pydantic model: eight entity collections plus scalar
configuration, with the field defaults of the source
(`valid_configuration: bool = True`, `seed: int = 21`).
`reconfiguration_cost` is a float in the source; the loader never computes
with it, so it is embedded as an integer. -/
structure Adapter where
  valid_configuration : Bool := true
  reconfiguration_cost : Int := 0
  time_model_data : List TimeModelData := []
  state_data : List StateData := []
  process_data : List ProcessData := []
  queue_data : List QueueData := []
  resource_data : List ResourceData := []
  material_data : List MaterialData := []
  sink_data : List SinkData := []
  source_data : List SourceData := []
  seed : Int := 21
deriving Repr, DecidableEq

/-- Assignment to `time_model_data` under `validate_assignment = True`:
the field has no validator, so the assignment always succeeds. -/
def Adapter.assign_time_model_data (a : Adapter) (v : List TimeModelData) :
    Except LoadError Adapter :=
  .ok { a with time_model_data := v }

/-- Assignment to `state_data`: re-runs `check_states` per item against the
model's current `time_model_data` (pydantic passes the other fields'
current values to the validator). -/
def Adapter.assign_state_data (a : Adapter) (v : List StateData) :
    Except LoadError Adapter :=
  (validateEach (check_states a.time_model_data) v).map
    fun v' => { a with state_data := v' }

/-- Assignment to `process_data`: re-runs `check_processes` per item. -/
def Adapter.assign_process_data (a : Adapter) (v : List ProcessData) :
    Except LoadError Adapter :=
  (validateEach (check_processes a.time_model_data) v).map
    fun v' => { a with process_data := v' }

/-- Assignment to `queue_data`: no validator, always succeeds. -/
def Adapter.assign_queue_data (a : Adapter) (v : List QueueData) :
    Except LoadError Adapter :=
  .ok { a with queue_data := v }

/-- Assignment to `resource_data`: re-runs `check_resources` per item. -/
def Adapter.assign_resource_data (a : Adapter) (v : List ResourceData) :
    Except LoadError Adapter :=
  (validateEach (check_resources a.process_data a.state_data a.queue_data) v).map
    fun v' => { a with resource_data := v' }

/-- Assignment to `material_data`: re-runs `check_materials` per item. -/
def Adapter.assign_material_data (a : Adapter) (v : List MaterialData) :
    Except LoadError Adapter :=
  (validateEach (check_materials a.process_data) v).map
    fun v' => { a with material_data := v' }

/-- Assignment to `sink_data`: re-runs `check_sinks` per item. -/
def Adapter.assign_sink_data (a : Adapter) (v : List SinkData) :
    Except LoadError Adapter :=
  (validateEach (check_sinks a.material_data a.queue_data) v).map
    fun v' => { a with sink_data := v' }

/-- Assignment to `source_data`: re-runs `check_sources` per item. -/
def Adapter.assign_source_data (a : Adapter) (v : List SourceData) :
    Except LoadError Adapter :=
  (validateEach (check_sources a.time_model_data a.material_data a.queue_data) v).map
    fun v' => { a with source_data := v' }

/-- A document section: a mapping from record key to raw record, embedded
as an association list in insertion order.  `prodsim.data_structures`'
pydantic decoding (`parse_obj_as`) is not in src/, so records are embedded
as already-decoded entities; the keys are carried only to model
`dict.values()` and the positional keys assigned at dump time. -/
def DocSection (α : Type) := List (String × α)

/-- Embeds `dict.values()` of a section: the records in insertion order. -/
def sectionValues (s : DocSection α) : List α :=
  s.map Prod.snd

/-- The raw document: a scalar `seed` plus eight named sections, each
possibly absent (`data["<name>"]` raises when the key is missing). -/
structure Document where
  seed : Option Int := none
  time_models : Option (DocSection TimeModelData) := none
  states : Option (DocSection StateData) := none
  processes : Option (DocSection ProcessData) := none
  queues : Option (DocSection QueueData) := none
  resources : Option (DocSection ResourceData) := none
  materials : Option (DocSection MaterialData) := none
  sinks : Option (DocSection SinkData) := none
  sources : Option (DocSection SourceData) := none

/-- Embeds `data["<name>"]`: the section's value, or a missing-section failure
(Python's `KeyError`) when the key is absent. -/
def getSection (name : String) : Option α → Except LoadError α
  | some x => .ok x
  | none => .error (.missingSection name)

/-- Embeds `JsonAdapter.read_data`: reads the nine top-level keys in source order
and assigns each collection in turn; every assignment runs that field's
validators against the adapter's current other fields
(`validate_assignment = True`).  `create_objects_from_configuration_data`
is `sectionValues` here: it iterates the section's `.values()` in order. -/
def read_data (a : Adapter) (d : Document) : Except LoadError Adapter := do
  let s ← getSection "seed" d.seed
  let a := { a with seed := s }
  let tm ← getSection "time_models" d.time_models
  let a ← a.assign_time_model_data (sectionValues tm)
  let st ← getSection "states" d.states
  let a ← a.assign_state_data (sectionValues st)
  let pr ← getSection "processes" d.processes
  let a ← a.assign_process_data (sectionValues pr)
  let q ← getSection "queues" d.queues
  let a ← a.assign_queue_data (sectionValues q)
  let r ← getSection "resources" d.resources
  let a ← a.assign_resource_data (sectionValues r)
  let m ← getSection "materials" d.materials
  let a ← a.assign_material_data (sectionValues m)
  let sk ← getSection "sinks" d.sinks
  let a ← a.assign_sink_data (sectionValues sk)
  let so ← getSection "sources" d.sources
  a.assign_source_data (sectionValues so)

/-- Loading a document: `JsonAdapter()` with all field defaults, then
`read_data`. -/
def load (d : Document) : Except LoadError Adapter :=
  read_data {} d

/-- Embeds `JsonAdapter.get_dict_of_list_objects`: re-keys a collection with a
stable 0-based positional key per entity (`enumerate`). -/
def get_dict_of_list_objects (values : List α) : DocSection α :=
  values.enum.map fun p => (toString p.1, p.2)

/-- Embeds `JsonAdapter.get_dict_object_of_adapter`: serializes the adapter back
to the raw document shape — the seed plus the eight sections, each re-keyed
positionally. -/
def get_dict_object_of_adapter (a : Adapter) : Document where
  seed := some a.seed
  time_models := some (get_dict_of_list_objects a.time_model_data)
  states := some (get_dict_of_list_objects a.state_data)
  processes := some (get_dict_of_list_objects a.process_data)
  queues := some (get_dict_of_list_objects a.queue_data)
  resources := some (get_dict_of_list_objects a.resource_data)
  materials := some (get_dict_of_list_objects a.material_data)
  sinks := some (get_dict_of_list_objects a.sink_data)
  sources := some (get_dict_of_list_objects a.source_data)

/-- The queue references a resource carries: none for the base variant,
`input_queues + output_queues` for the production-capable variant
(exactly the list the validator's queue loop walks). -/
def ResourceData.queueRefs : ResourceData → List String
  | .base _ _ _ => []
  | .production _ _ _ input_queues output_queues => input_queues ++ output_queues

/-- All validator conditions hold on the graph: every reference field of
every entity resolves within the graph's own collections (including the
production-capable resources' queue references).  This is exactly the
conjunction of conditions under which every field validator accepts. -/
def checksPass (g : Adapter) : Prop :=
  (∀ s ∈ g.state_data,
      s.time_model_id ∈ get_set_of_IDs TimeModelData.ID g.time_model_data) ∧
  (∀ p ∈ g.process_data,
      p.time_model_id ∈ get_set_of_IDs TimeModelData.ID g.time_model_data) ∧
  (∀ r ∈ g.resource_data,
      (∀ p ∈ ResourceData.processes r, p ∈ get_set_of_IDs ProcessData.ID g.process_data) ∧
      (∀ s ∈ ResourceData.states r, s ∈ get_set_of_IDs StateData.ID g.state_data) ∧
      (∀ q ∈ ResourceData.queueRefs r, q ∈ get_set_of_IDs QueueData.ID g.queue_data)) ∧
  (∀ m ∈ g.material_data,
      m.transport_process ∈ get_set_of_IDs ProcessData.ID g.process_data ∧
      ∀ p ∈ m.processes.getD [], p ∈ get_set_of_IDs ProcessData.ID g.process_data) ∧
  (∀ sk ∈ g.sink_data,
      sk.material_type ∈ get_set_of_IDs MaterialData.ID g.material_data ∧
      ∀ q ∈ sk.input_queues, q ∈ get_set_of_IDs QueueData.ID g.queue_data) ∧
  (∀ so ∈ g.source_data,
      so.time_model_id ∈ get_set_of_IDs TimeModelData.ID g.time_model_data ∧
      so.material_type ∈ get_set_of_IDs MaterialData.ID g.material_data ∧
      ∀ q ∈ so.output_queues, q ∈ get_set_of_IDs QueueData.ID g.queue_data)

instance (g : Adapter) : Decidable (checksPass g) := by
  unfold checksPass; infer_instance

/-! ## Document-level predicates -/

/-- The records of a possibly-absent section, in order (empty when the
section is absent). -/
def secValuesD (o : Option (DocSection α)) : List α :=
  sectionValues (o.getD [])

/-- All nine required top-level keys are present. -/
def Document.complete (d : Document) : Prop :=
  d.seed.isSome ∧ d.time_models.isSome ∧ d.states.isSome ∧ d.processes.isSome ∧
  d.queues.isSome ∧ d.resources.isSome ∧ d.materials.isSome ∧ d.sinks.isSome ∧
  d.sources.isSome

instance (d : Document) : Decidable d.complete := by
  unfold Document.complete; infer_instance

/-- The adapter a successful `read_data` on a fresh `JsonAdapter()`
produces: each collection is the corresponding section's records in order,
the seed is the document's, and the remaining fields keep their defaults. -/
def graphOf (d : Document) : Adapter where
  valid_configuration := true
  reconfiguration_cost := 0
  time_model_data := secValuesD d.time_models
  state_data := secValuesD d.states
  process_data := secValuesD d.processes
  queue_data := secValuesD d.queues
  resource_data := secValuesD d.resources
  material_data := secValuesD d.materials
  sink_data := secValuesD d.sinks
  source_data := secValuesD d.sources
  seed := d.seed.getD 21
/-- Entity `entity` of document `d` declares, in reference field `field`, a
reference to `target`, and no entity with ID `target` exists in the
collection that `field` must resolve in.  One disjunct per reference field
the validators check. -/
def docViolation (d : Document) (entity field target : String) : Prop :=
  (∃ s ∈ secValuesD d.states, entity = s.ID ∧ field = "time_model_id" ∧
    target = s.time_model_id ∧
    target ∉ get_set_of_IDs TimeModelData.ID (secValuesD d.time_models)) ∨
  (∃ p ∈ secValuesD d.processes, entity = p.ID ∧ field = "time_model_id" ∧
    target = p.time_model_id ∧
    target ∉ get_set_of_IDs TimeModelData.ID (secValuesD d.time_models)) ∨
  (∃ r ∈ secValuesD d.resources, entity = ResourceData.ID r ∧
    ((field = "processes" ∧ target ∈ ResourceData.processes r ∧
       target ∉ get_set_of_IDs ProcessData.ID (secValuesD d.processes)) ∨
     (field = "states" ∧ target ∈ ResourceData.states r ∧
       target ∉ get_set_of_IDs StateData.ID (secValuesD d.states)) ∨
     (field = "queues" ∧ target ∈ ResourceData.queueRefs r ∧
       target ∉ get_set_of_IDs QueueData.ID (secValuesD d.queues)))) ∨
  (∃ m ∈ secValuesD d.materials, entity = m.ID ∧
    ((field = "transport_process" ∧ target = m.transport_process ∧
       target ∉ get_set_of_IDs ProcessData.ID (secValuesD d.processes)) ∨
     (field = "processes" ∧ target ∈ m.processes.getD [] ∧
       target ∉ get_set_of_IDs ProcessData.ID (secValuesD d.processes)))) ∨
  (∃ sk ∈ secValuesD d.sinks, entity = sk.ID ∧
    ((field = "material_type" ∧ target = sk.material_type ∧
       target ∉ get_set_of_IDs MaterialData.ID (secValuesD d.materials)) ∨
     (field = "input_queues" ∧ target ∈ sk.input_queues ∧
       target ∉ get_set_of_IDs QueueData.ID (secValuesD d.queues)))) ∨
  (∃ so ∈ secValuesD d.sources, entity = so.ID ∧
    ((field = "time_model_id" ∧ target = so.time_model_id ∧
       target ∉ get_set_of_IDs TimeModelData.ID (secValuesD d.time_models)) ∨
     (field = "material_type" ∧ target = so.material_type ∧
       target ∉ get_set_of_IDs MaterialData.ID (secValuesD d.materials)) ∨
     (field = "output_queues" ∧ target ∈ so.output_queues ∧
       target ∉ get_set_of_IDs QueueData.ID (secValuesD d.queues))))
/-- The top-level key `name` is a required key of the document shape and is
absent from `d`. -/
def sectionAbsent (d : Document) (name : String) : Prop :=
  (name = "seed" ∧ d.seed = none) ∨
  (name = "time_models" ∧ d.time_models = none) ∨
  (name = "states" ∧ d.states = none) ∨
  (name = "processes" ∧ d.processes = none) ∨
  (name = "queues" ∧ d.queues = none) ∨
  (name = "resources" ∧ d.resources = none) ∨
  (name = "materials" ∧ d.materials = none) ∨
  (name = "sinks" ∧ d.sinks = none) ∨
  (name = "sources" ∧ d.sources = none)
/-! ## Concrete example data -/

/-- A small well-formed document exercising every collection. -/
def exDoc : Document where
  seed := some 42
  time_models := some [("0", ⟨"tm1"⟩)]
  states := some [("0", ⟨"s1", "tm1"⟩)]
  processes := some [("0", ⟨"p1", "tm1"⟩)]
  queues := some [("0", ⟨"q1", 5⟩)]
  resources := some [("0", .production "r1" ["p1"] ["s1"] ["q1"] ["q1"]),
    ("1", .base "r2" ["p1"] ["s1"])]
  materials := some [("0", ⟨"m1", "p1", some ["p1"]⟩), ("1", ⟨"m2", "p1", none⟩)]
  sinks := some [("0", ⟨"sk1", "m1", ["q1"]⟩)]
  sources := some [("0", ⟨"src1", "tm1", "m1", ["q1"]⟩)]

/-- Variant of `exDoc` with the state's time-model reference dangling (`tm2`). -/
def exBadDoc : Document :=
  { exDoc with states := some [("0", ⟨"s1", "tm2"⟩)] }

/-- A graph holding one time model `tm1` and one state `s1` referencing it
(the spec's concrete scenario). -/
def g0 : Adapter where
  time_model_data := [⟨"tm1"⟩]
  state_data := [⟨"s1", "tm1"⟩]
/-- A document whose `time_models` section holds two records sharing the
ID `tm1`. -/
def dupDoc : Document where
  seed := some 1
  time_models := some [("0", ⟨"tm1"⟩), ("1", ⟨"tm1"⟩)]
  states := some []
  processes := some []
  queues := some []
  resources := some []
  materials := some []
  sinks := some []
  sources := some []
/-- A document carrying exactly the two given time-model records (all other
sections present but empty). -/
def pairDoc (t1 t2 : TimeModelData) : Document where
  seed := some 1
  time_models := some [("0", t1), ("1", t2)]
  states := some []
  processes := some []
  queues := some []
  resources := some []
  materials := some []
  sinks := some []
  sources := some []
/-- Whether a load result is a missing-section failure. -/
def isMissingSectionError : Except LoadError Adapter → Bool
  | .error (.missingSection _) => true
  | _ => false
/-- A document with the `sinks` key absent and a state whose time-model
reference dangles in a section read before `sinks`. -/
def badIncompleteDoc : Document where
  seed := some 1
  time_models := some [("0", ⟨"tm1"⟩)]
  states := some [("0", ⟨"s1", "tm2"⟩)]
  processes := some []
  queues := some []
  resources := some []
  materials := some []
  sinks := none
  sources := some []
/-- A well-referenced document missing only the `sources` key. -/
def incompleteDoc : Document where
  seed := some 1
  time_models := some [("0", ⟨"tm1"⟩)]
  states := some [("0", ⟨"s1", "tm1"⟩)]
  processes := some []
  queues := some []
  resources := some []
  materials := some []
  sinks := some []
  sources := none

/-! ## Characterizations of the individual validators -/

theorem firstDangling_eq_none (refs valid : List String) :
    firstDangling refs valid = none ↔ ∀ r ∈ refs, r ∈ valid := by
  simp [firstDangling, List.find?_eq_none]

theorem firstDangling_some {refs valid : List String} {y : String}
    (h : firstDangling refs valid = some y) : y ∈ refs ∧ y ∉ valid :=
  ⟨List.mem_of_find?_eq_some h, by simpa using List.find?_some h⟩

theorem check_states_ok_iff (tms : List TimeModelData) (s s' : StateData) :
    check_states tms s = .ok s' ↔
      s' = s ∧ s.time_model_id ∈ get_set_of_IDs TimeModelData.ID tms := by
  rw [check_states]
  split <;> simp_all [eq_comm]

theorem check_processes_ok_iff (tms : List TimeModelData) (p p' : ProcessData) :
    check_processes tms p = .ok p' ↔
      p' = p ∧ p.time_model_id ∈ get_set_of_IDs TimeModelData.ID tms := by
  rw [check_processes]
  split <;> simp_all [eq_comm]

theorem check_resources_ok_iff (pd : List ProcessData) (sd : List StateData)
    (qd : List QueueData) (r r' : ResourceData) :
    check_resources pd sd qd r = .ok r' ↔
      r' = r ∧
      (∀ p ∈ ResourceData.processes r, p ∈ get_set_of_IDs ProcessData.ID pd) ∧
      (∀ s ∈ ResourceData.states r, s ∈ get_set_of_IDs StateData.ID sd) ∧
      (∀ q ∈ ResourceData.queueRefs r, q ∈ get_set_of_IDs QueueData.ID qd) := by
  cases r with
  | base i pcs sts =>
    unfold check_resources
    simp only [ResourceData.processes, ResourceData.states, ResourceData.queueRefs,
      ResourceData.ID]
    cases hp : firstDangling pcs (get_set_of_IDs ProcessData.ID pd) with
    | some p =>
      have hpm := firstDangling_some hp
      constructor
      · intro h; exact absurd h (by simp)
      · rintro ⟨-, h, -, -⟩; exact absurd (h p hpm.1) hpm.2
    | none =>
      have hpn := (firstDangling_eq_none _ _).mp hp
      cases hs : firstDangling sts (get_set_of_IDs StateData.ID sd) with
      | some s =>
        have hsm := firstDangling_some hs
        constructor
        · intro h; exact absurd h (by simp)
        · rintro ⟨-, -, h, -⟩; exact absurd (h s hsm.1) hsm.2
      | none =>
        have hsn := (firstDangling_eq_none _ _).mp hs
        simp only [Except.ok.injEq]
        constructor
        · intro h
          exact ⟨h.symm, hpn, hsn, by simp⟩
        · rintro ⟨rfl, -, -, -⟩; rfl
  | production i pcs sts iq oq =>
    unfold check_resources
    simp only [ResourceData.processes, ResourceData.states, ResourceData.queueRefs,
      ResourceData.ID]
    cases hp : firstDangling pcs (get_set_of_IDs ProcessData.ID pd) with
    | some p =>
      have hpm := firstDangling_some hp
      constructor
      · intro h; exact absurd h (by simp)
      · rintro ⟨-, h, -, -⟩; exact absurd (h p hpm.1) hpm.2
    | none =>
      have hpn := (firstDangling_eq_none _ _).mp hp
      cases hs : firstDangling sts (get_set_of_IDs StateData.ID sd) with
      | some s =>
        have hsm := firstDangling_some hs
        constructor
        · intro h; exact absurd h (by simp)
        · rintro ⟨-, -, h, -⟩; exact absurd (h s hsm.1) hsm.2
      | none =>
        have hsn := (firstDangling_eq_none _ _).mp hs
        cases hq : firstDangling (iq ++ oq) (get_set_of_IDs QueueData.ID qd) with
        | some q =>
          have hqm := firstDangling_some hq
          constructor
          · intro h; exact absurd h (by simp)
          · rintro ⟨-, -, -, h⟩; exact absurd (h q hqm.1) hqm.2
        | none =>
          have hqn := (firstDangling_eq_none _ _).mp hq
          simp only [Except.ok.injEq]
          constructor
          · intro h
            exact ⟨h.symm, hpn, hsn, hqn⟩
          · rintro ⟨rfl, -, -, -⟩; rfl

theorem check_materials_ok_iff (pd : List ProcessData) (m m' : MaterialData) :
    check_materials pd m = .ok m' ↔
      m' = m ∧ m.transport_process ∈ get_set_of_IDs ProcessData.ID pd ∧
      ∀ p ∈ m.processes.getD [], p ∈ get_set_of_IDs ProcessData.ID pd := by
  simp only [check_materials]
  by_cases ht : m.transport_process ∈ get_set_of_IDs ProcessData.ID pd
  · simp only [if_pos ht]
    cases hmp : m.processes with
    | none =>
      constructor
      · intro h; injection h with h; exact ⟨h.symm, ht, by simp⟩
      · rintro ⟨rfl, -, -⟩; rfl
    | some ps =>
      dsimp only
      cases hfd : firstDangling ps (get_set_of_IDs ProcessData.ID pd) with
      | some p =>
        have hm := firstDangling_some hfd
        constructor
        · intro h; exact Except.noConfusion h
        · rintro ⟨-, -, h⟩; exact absurd (h p (by simpa using hm.1)) hm.2
      | none =>
        have hn := (firstDangling_eq_none _ _).mp hfd
        constructor
        · intro h; injection h with h; exact ⟨h.symm, ht, by simpa using hn⟩
        · rintro ⟨rfl, -, -⟩; rfl
  · simp only [if_neg ht]
    constructor
    · intro h; exact Except.noConfusion h
    · rintro ⟨-, h, -⟩; exact absurd h ht

theorem check_sinks_ok_iff (md : List MaterialData) (qd : List QueueData)
    (sk sk' : SinkData) :
    check_sinks md qd sk = .ok sk' ↔
      sk' = sk ∧ sk.material_type ∈ get_set_of_IDs MaterialData.ID md ∧
      ∀ q ∈ sk.input_queues, q ∈ get_set_of_IDs QueueData.ID qd := by
  simp only [check_sinks]
  by_cases ht : sk.material_type ∈ get_set_of_IDs MaterialData.ID md
  · simp only [if_pos ht]
    cases hfd : firstDangling sk.input_queues (get_set_of_IDs QueueData.ID qd) with
    | some q =>
      have hm := firstDangling_some hfd
      constructor
      · intro h; exact Except.noConfusion h
      · rintro ⟨-, -, h⟩; exact absurd (h q hm.1) hm.2
    | none =>
      have hn := (firstDangling_eq_none _ _).mp hfd
      constructor
      · intro h; injection h with h; exact ⟨h.symm, ht, hn⟩
      · rintro ⟨rfl, -, -⟩; rfl
  · simp only [if_neg ht]
    constructor
    · intro h; exact Except.noConfusion h
    · rintro ⟨-, h, -⟩; exact absurd h ht

theorem check_sources_ok_iff (tmd : List TimeModelData) (md : List MaterialData)
    (qd : List QueueData) (so so' : SourceData) :
    check_sources tmd md qd so = .ok so' ↔
      so' = so ∧ so.time_model_id ∈ get_set_of_IDs TimeModelData.ID tmd ∧
      so.material_type ∈ get_set_of_IDs MaterialData.ID md ∧
      ∀ q ∈ so.output_queues, q ∈ get_set_of_IDs QueueData.ID qd := by
  simp only [check_sources]
  by_cases htm : so.time_model_id ∈ get_set_of_IDs TimeModelData.ID tmd
  · simp only [if_pos htm]
    by_cases hmt : so.material_type ∈ get_set_of_IDs MaterialData.ID md
    · simp only [if_pos hmt]
      cases hfd : firstDangling so.output_queues (get_set_of_IDs QueueData.ID qd) with
      | some q =>
        have hm := firstDangling_some hfd
        constructor
        · intro h; exact Except.noConfusion h
        · rintro ⟨-, -, -, h⟩; exact absurd (h q hm.1) hm.2
      | none =>
        have hn := (firstDangling_eq_none _ _).mp hfd
        constructor
        · intro h; injection h with h; exact ⟨h.symm, htm, hmt, hn⟩
        · rintro ⟨rfl, -, -, -⟩; rfl
    · simp only [if_neg hmt]
      constructor
      · intro h; exact Except.noConfusion h
      · rintro ⟨-, -, h, -⟩; exact absurd h hmt
  · simp only [if_neg htm]
    constructor
    · intro h; exact Except.noConfusion h
    · rintro ⟨-, h, -, -⟩; exact absurd h htm

theorem check_states_error {tms : List TimeModelData} {s : StateData} {e : LoadError}
    (h : check_states tms s = .error e) :
    s.time_model_id ∉ get_set_of_IDs TimeModelData.ID tms ∧
    e = .danglingReference s.ID "time_model_id" s.time_model_id
          (get_set_of_IDs TimeModelData.ID tms) := by
  rw [check_states] at h
  split at h
  · exact Except.noConfusion h
  · next hn => injection h with h; exact ⟨hn, h.symm⟩

theorem check_processes_error {tms : List TimeModelData} {p : ProcessData} {e : LoadError}
    (h : check_processes tms p = .error e) :
    p.time_model_id ∉ get_set_of_IDs TimeModelData.ID tms ∧
    e = .danglingReference p.ID "time_model_id" p.time_model_id
          (get_set_of_IDs TimeModelData.ID tms) := by
  rw [check_processes] at h
  split at h
  · exact Except.noConfusion h
  · next hn => injection h with h; exact ⟨hn, h.symm⟩

theorem check_resources_error {pd : List ProcessData} {sd : List StateData}
    {qd : List QueueData} {r : ResourceData} {e : LoadError}
    (h : check_resources pd sd qd r = .error e) :
    (∃ p ∈ ResourceData.processes r, p ∉ get_set_of_IDs ProcessData.ID pd ∧
      e = .danglingReference r.ID "processes" p (get_set_of_IDs ProcessData.ID pd)) ∨
    (∃ s ∈ ResourceData.states r, s ∉ get_set_of_IDs StateData.ID sd ∧
      e = .danglingReference r.ID "states" s (get_set_of_IDs StateData.ID sd)) ∨
    (∃ q ∈ ResourceData.queueRefs r, q ∉ get_set_of_IDs QueueData.ID qd ∧
      e = .danglingReference r.ID "queues" q (get_set_of_IDs QueueData.ID qd)) := by
  unfold check_resources at h
  try dsimp only at h
  cases hp : firstDangling (ResourceData.processes r) (get_set_of_IDs ProcessData.ID pd) with
  | some p =>
    rw [hp] at h
    have hm := firstDangling_some hp
    injection h with h
    exact Or.inl ⟨p, hm.1, hm.2, h.symm⟩
  | none =>
    rw [hp] at h
    cases hs : firstDangling (ResourceData.states r) (get_set_of_IDs StateData.ID sd) with
    | some s =>
      rw [hs] at h
      have hm := firstDangling_some hs
      injection h with h
      exact Or.inr (Or.inl ⟨s, hm.1, hm.2, h.symm⟩)
    | none =>
      rw [hs] at h
      cases r with
      | base i pcs sts => exact Except.noConfusion h
      | production i pcs sts iq oq =>
        dsimp only at h
        cases hq : firstDangling (iq ++ oq) (get_set_of_IDs QueueData.ID qd) with
        | some q =>
          rw [hq] at h
          have hm := firstDangling_some hq
          injection h with h
          exact Or.inr (Or.inr ⟨q, hm.1, hm.2, h.symm⟩)
        | none => rw [hq] at h; exact Except.noConfusion h

theorem check_materials_error {pd : List ProcessData} {m : MaterialData} {e : LoadError}
    (h : check_materials pd m = .error e) :
    (m.transport_process ∉ get_set_of_IDs ProcessData.ID pd ∧
      e = .danglingReference m.ID "transport_process" m.transport_process
            (get_set_of_IDs ProcessData.ID pd)) ∨
    (∃ p ∈ m.processes.getD [], p ∉ get_set_of_IDs ProcessData.ID pd ∧
      e = .danglingReference m.ID "processes" p (get_set_of_IDs ProcessData.ID pd)) := by
  rw [check_materials] at h
  split at h
  · next ht =>
    cases hmp : m.processes with
    | none => rw [hmp] at h; exact Except.noConfusion h
    | some ps =>
      rw [hmp] at h
      dsimp only at h
      cases hfd : firstDangling ps (get_set_of_IDs ProcessData.ID pd) with
      | some p =>
        rw [hfd] at h
        have hm := firstDangling_some hfd
        injection h with h
        exact Or.inr ⟨p, by simp [hmp, hm.1], hm.2, h.symm⟩
      | none => rw [hfd] at h; exact Except.noConfusion h
  · next ht => injection h with h; exact Or.inl ⟨ht, h.symm⟩

theorem check_sinks_error {md : List MaterialData} {qd : List QueueData}
    {sk : SinkData} {e : LoadError} (h : check_sinks md qd sk = .error e) :
    (sk.material_type ∉ get_set_of_IDs MaterialData.ID md ∧
      e = .danglingReference sk.ID "material_type" sk.material_type
            (get_set_of_IDs MaterialData.ID md)) ∨
    (∃ q ∈ sk.input_queues, q ∉ get_set_of_IDs QueueData.ID qd ∧
      e = .danglingReference sk.ID "input_queues" q (get_set_of_IDs QueueData.ID qd)) := by
  rw [check_sinks] at h
  try dsimp only at h
  split at h
  · next ht =>
    cases hfd : firstDangling sk.input_queues (get_set_of_IDs QueueData.ID qd) with
    | some q =>
      rw [hfd] at h
      have hm := firstDangling_some hfd
      injection h with h
      exact Or.inr ⟨q, hm.1, hm.2, h.symm⟩
    | none => rw [hfd] at h; exact Except.noConfusion h
  · next ht => injection h with h; exact Or.inl ⟨ht, h.symm⟩

theorem check_sources_error {tmd : List TimeModelData} {md : List MaterialData}
    {qd : List QueueData} {so : SourceData} {e : LoadError}
    (h : check_sources tmd md qd so = .error e) :
    (so.time_model_id ∉ get_set_of_IDs TimeModelData.ID tmd ∧
      e = .danglingReference so.ID "time_model_id" so.time_model_id
            (get_set_of_IDs TimeModelData.ID tmd)) ∨
    (so.material_type ∉ get_set_of_IDs MaterialData.ID md ∧
      e = .danglingReference so.ID "material_type" so.material_type
            (get_set_of_IDs MaterialData.ID md)) ∨
    (∃ q ∈ so.output_queues, q ∉ get_set_of_IDs QueueData.ID qd ∧
      e = .danglingReference so.ID "output_queues" q (get_set_of_IDs QueueData.ID qd)) := by
  rw [check_sources] at h
  try dsimp only at h
  split at h
  · next htm =>
    split at h
    · next hmt =>
      cases hfd : firstDangling so.output_queues (get_set_of_IDs QueueData.ID qd) with
      | some q =>
        rw [hfd] at h
        have hm := firstDangling_some hfd
        injection h with h
        exact Or.inr (Or.inr ⟨q, hm.1, hm.2, h.symm⟩)
      | none => rw [hfd] at h; exact Except.noConfusion h
    · next hmt => injection h with h; exact Or.inr (Or.inl ⟨hmt, h.symm⟩)
  · next htm => injection h with h; exact Or.inl ⟨htm, h.symm⟩

/-! ## `validateEach` (pydantic each_item) lemmas -/

theorem validateEach_ok_of_all {α : Type} {check : α → Except LoadError α} {l : List α}
    (h : ∀ x ∈ l, check x = .ok x) : validateEach check l = .ok l := by
  induction l with
  | nil => rfl
  | cons x xs ih =>
    rw [validateEach, h x (List.mem_cons_self x xs),
      ih fun y hy => h y (List.mem_cons_of_mem x hy)]

theorem validateEach_ok_forall {α : Type} {check : α → Except LoadError α}
    (hid : ∀ x y, check x = .ok y → y = x) :
    ∀ {l l' : List α}, validateEach check l = .ok l' →
      l' = l ∧ ∀ x ∈ l, check x = .ok x := by
  intro l
  induction l with
  | nil =>
    intro l' h
    rw [validateEach] at h
    injection h with h
    exact ⟨h.symm, by simp⟩
  | cons x xs ih =>
    intro l' h
    rw [validateEach] at h
    cases hx : check x with
    | error e => rw [hx] at h; exact Except.noConfusion h
    | ok y =>
      rw [hx] at h
      cases hv : validateEach check xs with
      | error e => rw [hv] at h; exact Except.noConfusion h
      | ok ys =>
        rw [hv] at h
        injection h with h
        obtain ⟨rfl, hall⟩ := ih hv
        obtain rfl := hid x y hx
        refine ⟨h.symm, ?_⟩
        intro z hz
        rcases List.mem_cons.mp hz with rfl | hz
        · exact hx
        · exact hall z hz

theorem validateEach_error_mem {α : Type} {check : α → Except LoadError α} :
    ∀ {l : List α} {e : LoadError}, validateEach check l = .error e →
      ∃ x ∈ l, check x = .error e := by
  intro l
  induction l with
  | nil => intro e h; rw [validateEach] at h; exact Except.noConfusion h
  | cons x xs ih =>
    intro e h
    rw [validateEach] at h
    cases hx : check x with
    | error e2 =>
      rw [hx] at h
      injection h with h
      exact ⟨x, List.mem_cons_self x xs, by rw [hx, h]⟩
    | ok y =>
      rw [hx] at h
      cases hv : validateEach check xs with
      | error e2 =>
        rw [hv] at h
        injection h with h
        obtain ⟨z, hz, hze⟩ := ih hv
        exact ⟨z, List.mem_cons_of_mem x hz, by rw [hze, h]⟩
      | ok ys => rw [hv] at h; exact Except.noConfusion h

/-! ## Reduction helpers for the Except monad -/

theorem okBind {α β : Type} (x : α) (f : α → Except LoadError β) :
    (Except.ok x >>= f) = f x := rfl

theorem errorBind {α β : Type} (e : LoadError) (f : α → Except LoadError β) :
    ((Except.error e : Except LoadError α) >>= f) = Except.error e := rfl

theorem mapOk {α β : Type} (f : α → β) (x : α) :
    (Except.ok x : Except LoadError α).map f = .ok (f x) := rfl

theorem mapError {α β : Type} (f : α → β) (e : LoadError) :
    (Except.error e : Except LoadError α).map f = .error e := rfl

theorem load_ok_elim {d : Document} {g : Adapter} (h : load d = .ok g) :
    d.complete ∧ g = graphOf d ∧ checksPass g := by
  obtain ⟨os, otm, ost, opr, oq, orr, om, osk, oso⟩ := d
  simp only [load, read_data] at h
  cases os with
  | none => simp [getSection, errorBind] at h
  | some s =>
  simp only [getSection, okBind] at h
  cases otm with
  | none => simp [getSection, errorBind] at h
  | some tm =>
  simp only [getSection, okBind, Adapter.assign_time_model_data] at h
  cases ost with
  | none => simp [getSection, errorBind] at h
  | some st =>
  simp only [getSection, okBind, Adapter.assign_state_data] at h
  try dsimp only at h
  cases hst : validateEach (check_states (sectionValues tm)) (sectionValues st) with
  | error e => rw [hst] at h; simp [mapError, errorBind] at h
  | ok stv =>
  rw [hst] at h
  obtain ⟨rfl, hstOK⟩ :=
    validateEach_ok_forall (fun x y hy => ((check_states_ok_iff _ _ _).mp hy).1) hst
  simp only [mapOk, okBind] at h
  cases opr with
  | none => simp [getSection, errorBind] at h
  | some pr =>
  simp only [getSection, okBind, Adapter.assign_process_data] at h
  try dsimp only at h
  cases hpr : validateEach (check_processes (sectionValues tm)) (sectionValues pr) with
  | error e => rw [hpr] at h; simp [mapError, errorBind] at h
  | ok prv =>
  rw [hpr] at h
  obtain ⟨rfl, hprOK⟩ :=
    validateEach_ok_forall (fun x y hy => ((check_processes_ok_iff _ _ _).mp hy).1) hpr
  simp only [mapOk, okBind] at h
  cases oq with
  | none => simp [getSection, errorBind] at h
  | some q =>
  simp only [getSection, okBind, Adapter.assign_queue_data] at h
  cases orr with
  | none => simp [getSection, errorBind] at h
  | some r =>
  simp only [getSection, okBind, Adapter.assign_resource_data] at h
  try dsimp only at h
  cases hre : validateEach
      (check_resources (sectionValues pr) (sectionValues st) (sectionValues q))
      (sectionValues r) with
  | error e => rw [hre] at h; simp [mapError, errorBind] at h
  | ok rv =>
  rw [hre] at h
  obtain ⟨rfl, hreOK⟩ :=
    validateEach_ok_forall (fun x y hy => ((check_resources_ok_iff _ _ _ _ _).mp hy).1) hre
  simp only [mapOk, okBind] at h
  cases om with
  | none => simp [getSection, errorBind] at h
  | some m =>
  simp only [getSection, okBind, Adapter.assign_material_data] at h
  try dsimp only at h
  cases hma : validateEach (check_materials (sectionValues pr)) (sectionValues m) with
  | error e => rw [hma] at h; simp [mapError, errorBind] at h
  | ok mv =>
  rw [hma] at h
  obtain ⟨rfl, hmaOK⟩ :=
    validateEach_ok_forall (fun x y hy => ((check_materials_ok_iff _ _ _).mp hy).1) hma
  simp only [mapOk, okBind] at h
  cases osk with
  | none => simp [getSection, errorBind] at h
  | some sk =>
  simp only [getSection, okBind, Adapter.assign_sink_data] at h
  try dsimp only at h
  cases hsk : validateEach (check_sinks (sectionValues m) (sectionValues q))
      (sectionValues sk) with
  | error e => rw [hsk] at h; simp [mapError, errorBind] at h
  | ok skv =>
  rw [hsk] at h
  obtain ⟨rfl, hskOK⟩ :=
    validateEach_ok_forall (fun x y hy => ((check_sinks_ok_iff _ _ _ _).mp hy).1) hsk
  simp only [mapOk, okBind] at h
  cases oso with
  | none => simp [getSection, errorBind] at h
  | some so =>
  simp only [getSection, okBind, Adapter.assign_source_data] at h
  try dsimp only at h
  cases hso : validateEach
      (check_sources (sectionValues tm) (sectionValues m) (sectionValues q))
      (sectionValues so) with
  | error e => rw [hso] at h; simp [mapError, errorBind] at h
  | ok sov =>
  rw [hso] at h
  obtain ⟨rfl, hsoOK⟩ :=
    validateEach_ok_forall (fun x y hy => ((check_sources_ok_iff _ _ _ _ _).mp hy).1) hso
  simp only [mapOk, okBind] at h
  injection h with h
  subst h
  refine ⟨by simp [Document.complete], by simp [graphOf, secValuesD], ?_⟩
  refine ⟨?_, ?_, ?_, ?_, ?_, ?_⟩
  · intro x hx
    exact ((check_states_ok_iff _ _ _).mp (hstOK x hx)).2
  · intro x hx
    exact ((check_processes_ok_iff _ _ _).mp (hprOK x hx)).2
  · intro x hx
    obtain ⟨-, h1, h2, h3⟩ := (check_resources_ok_iff _ _ _ _ _).mp (hreOK x hx)
    exact ⟨h1, h2, h3⟩
  · intro x hx
    obtain ⟨-, h1, h2⟩ := (check_materials_ok_iff _ _ _).mp (hmaOK x hx)
    exact ⟨h1, h2⟩
  · intro x hx
    obtain ⟨-, h1, h2⟩ := (check_sinks_ok_iff _ _ _ _).mp (hskOK x hx)
    exact ⟨h1, h2⟩
  · intro x hx
    obtain ⟨-, h1, h2, h3⟩ := (check_sources_ok_iff _ _ _ _ _).mp (hsoOK x hx)
    exact ⟨h1, h2, h3⟩

theorem load_ok_intro {d : Document} (hc : d.complete) (hcp : checksPass (graphOf d)) :
    load d = .ok (graphOf d) := by
  obtain ⟨os, otm, ost, opr, oq, orr, om, osk, oso⟩ := d
  obtain ⟨h1, h2, h3, h4, h5, h6, h7, h8, h9⟩ := hc
  obtain ⟨s, rfl⟩ := Option.isSome_iff_exists.mp h1
  obtain ⟨tm, rfl⟩ := Option.isSome_iff_exists.mp h2
  obtain ⟨st, rfl⟩ := Option.isSome_iff_exists.mp h3
  obtain ⟨pr, rfl⟩ := Option.isSome_iff_exists.mp h4
  obtain ⟨q, rfl⟩ := Option.isSome_iff_exists.mp h5
  obtain ⟨r, rfl⟩ := Option.isSome_iff_exists.mp h6
  obtain ⟨m, rfl⟩ := Option.isSome_iff_exists.mp h7
  obtain ⟨sk, rfl⟩ := Option.isSome_iff_exists.mp h8
  obtain ⟨so, rfl⟩ := Option.isSome_iff_exists.mp h9
  simp only [graphOf, checksPass, secValuesD, Option.getD_some] at hcp
  obtain ⟨c1, c2, c3, c4, c5, c6⟩ := hcp
  have hstall : validateEach (check_states (sectionValues tm)) (sectionValues st) =
      .ok (sectionValues st) :=
    validateEach_ok_of_all fun x hx => (check_states_ok_iff _ _ _).mpr ⟨rfl, c1 x hx⟩
  have hprall : validateEach (check_processes (sectionValues tm)) (sectionValues pr) =
      .ok (sectionValues pr) :=
    validateEach_ok_of_all fun x hx => (check_processes_ok_iff _ _ _).mpr ⟨rfl, c2 x hx⟩
  have hreall : validateEach
      (check_resources (sectionValues pr) (sectionValues st) (sectionValues q))
      (sectionValues r) = .ok (sectionValues r) :=
    validateEach_ok_of_all fun x hx => (check_resources_ok_iff _ _ _ _ _).mpr
      ⟨rfl, (c3 x hx).1, (c3 x hx).2.1, (c3 x hx).2.2⟩
  have hmaall : validateEach (check_materials (sectionValues pr)) (sectionValues m) =
      .ok (sectionValues m) :=
    validateEach_ok_of_all fun x hx => (check_materials_ok_iff _ _ _).mpr
      ⟨rfl, (c4 x hx).1, (c4 x hx).2⟩
  have hskall : validateEach (check_sinks (sectionValues m) (sectionValues q))
      (sectionValues sk) = .ok (sectionValues sk) :=
    validateEach_ok_of_all fun x hx => (check_sinks_ok_iff _ _ _ _).mpr
      ⟨rfl, (c5 x hx).1, (c5 x hx).2⟩
  have hsoall : validateEach
      (check_sources (sectionValues tm) (sectionValues m) (sectionValues q))
      (sectionValues so) = .ok (sectionValues so) :=
    validateEach_ok_of_all fun x hx => (check_sources_ok_iff _ _ _ _ _).mpr
      ⟨rfl, (c6 x hx).1, (c6 x hx).2.1, (c6 x hx).2.2⟩
  simp only [load, read_data, getSection, okBind, Adapter.assign_time_model_data,
    Adapter.assign_state_data, Adapter.assign_process_data, Adapter.assign_queue_data,
    Adapter.assign_resource_data, Adapter.assign_material_data, Adapter.assign_sink_data,
    Adapter.assign_source_data, hstall, hprall, hreall, hmaall, hskall, hsoall,
    mapOk, okBind, graphOf, secValuesD, Option.getD_some]

theorem load_error_complete {d : Document} {e : LoadError} (hc : d.complete)
    (h : load d = .error e) :
    ∃ X f y S, e = .danglingReference X f y S ∧ docViolation d X f y := by
  obtain ⟨os, otm, ost, opr, oq, orr, om, osk, oso⟩ := d
  obtain ⟨h1, h2, h3, h4, h5, h6, h7, h8, h9⟩ := hc
  obtain ⟨s, rfl⟩ := Option.isSome_iff_exists.mp h1
  obtain ⟨tm, rfl⟩ := Option.isSome_iff_exists.mp h2
  obtain ⟨st, rfl⟩ := Option.isSome_iff_exists.mp h3
  obtain ⟨pr, rfl⟩ := Option.isSome_iff_exists.mp h4
  obtain ⟨q, rfl⟩ := Option.isSome_iff_exists.mp h5
  obtain ⟨r, rfl⟩ := Option.isSome_iff_exists.mp h6
  obtain ⟨m, rfl⟩ := Option.isSome_iff_exists.mp h7
  obtain ⟨sk, rfl⟩ := Option.isSome_iff_exists.mp h8
  obtain ⟨so, rfl⟩ := Option.isSome_iff_exists.mp h9
  simp only [load, read_data, getSection, okBind, Adapter.assign_time_model_data,
    Adapter.assign_state_data, Adapter.assign_process_data, Adapter.assign_queue_data,
    Adapter.assign_resource_data, Adapter.assign_material_data, Adapter.assign_sink_data,
    Adapter.assign_source_data] at h
  try dsimp only at h
  cases hst : validateEach (check_states (sectionValues tm)) (sectionValues st) with
  | error e2 =>
    rw [hst] at h
    simp only [mapError, errorBind] at h
    injection h with h
    subst h
    obtain ⟨x, hx, hxe⟩ := validateEach_error_mem hst
    obtain ⟨hnm, rfl⟩ := check_states_error hxe
    exact ⟨x.ID, "time_model_id", x.time_model_id, _, rfl,
      Or.inl ⟨x, hx, rfl, rfl, rfl, hnm⟩⟩
  | ok stv =>
  rw [hst] at h
  obtain ⟨rfl, -⟩ :=
    validateEach_ok_forall (fun x y hy => ((check_states_ok_iff _ _ _).mp hy).1) hst
  simp only [mapOk, okBind] at h
  try dsimp only at h
  cases hpr : validateEach (check_processes (sectionValues tm)) (sectionValues pr) with
  | error e2 =>
    rw [hpr] at h
    simp only [mapError, errorBind] at h
    injection h with h
    subst h
    obtain ⟨x, hx, hxe⟩ := validateEach_error_mem hpr
    obtain ⟨hnm, rfl⟩ := check_processes_error hxe
    exact ⟨x.ID, "time_model_id", x.time_model_id, _, rfl,
      Or.inr (Or.inl ⟨x, hx, rfl, rfl, rfl, hnm⟩)⟩
  | ok prv =>
  rw [hpr] at h
  obtain ⟨rfl, -⟩ :=
    validateEach_ok_forall (fun x y hy => ((check_processes_ok_iff _ _ _).mp hy).1) hpr
  simp only [mapOk, okBind] at h
  try dsimp only at h
  cases hre : validateEach
      (check_resources (sectionValues pr) (sectionValues st) (sectionValues q))
      (sectionValues r) with
  | error e2 =>
    rw [hre] at h
    simp only [mapError, errorBind] at h
    injection h with h
    subst h
    obtain ⟨x, hx, hxe⟩ := validateEach_error_mem hre
    rcases check_resources_error hxe with ⟨p, hp, hnm, rfl⟩ | ⟨s2, hs2, hnm, rfl⟩ |
      ⟨q2, hq2, hnm, rfl⟩
    · exact ⟨ResourceData.ID x, "processes", p, _, rfl,
        Or.inr (Or.inr (Or.inl ⟨x, hx, rfl, Or.inl ⟨rfl, hp, hnm⟩⟩))⟩
    · exact ⟨ResourceData.ID x, "states", s2, _, rfl,
        Or.inr (Or.inr (Or.inl ⟨x, hx, rfl, Or.inr (Or.inl ⟨rfl, hs2, hnm⟩)⟩))⟩
    · exact ⟨ResourceData.ID x, "queues", q2, _, rfl,
        Or.inr (Or.inr (Or.inl ⟨x, hx, rfl, Or.inr (Or.inr ⟨rfl, hq2, hnm⟩)⟩))⟩
  | ok rv =>
  rw [hre] at h
  obtain ⟨rfl, -⟩ :=
    validateEach_ok_forall (fun x y hy => ((check_resources_ok_iff _ _ _ _ _).mp hy).1) hre
  simp only [mapOk, okBind] at h
  try dsimp only at h
  cases hma : validateEach (check_materials (sectionValues pr)) (sectionValues m) with
  | error e2 =>
    rw [hma] at h
    simp only [mapError, errorBind] at h
    injection h with h
    subst h
    obtain ⟨x, hx, hxe⟩ := validateEach_error_mem hma
    rcases check_materials_error hxe with ⟨hnm, rfl⟩ | ⟨p, hp, hnm, rfl⟩
    · exact ⟨x.ID, "transport_process", x.transport_process, _, rfl,
        Or.inr (Or.inr (Or.inr (Or.inl ⟨x, hx, rfl, Or.inl ⟨rfl, rfl, hnm⟩⟩)))⟩
    · exact ⟨x.ID, "processes", p, _, rfl,
        Or.inr (Or.inr (Or.inr (Or.inl ⟨x, hx, rfl, Or.inr ⟨rfl, hp, hnm⟩⟩)))⟩
  | ok mv =>
  rw [hma] at h
  obtain ⟨rfl, -⟩ :=
    validateEach_ok_forall (fun x y hy => ((check_materials_ok_iff _ _ _).mp hy).1) hma
  simp only [mapOk, okBind] at h
  try dsimp only at h
  cases hsk : validateEach (check_sinks (sectionValues m) (sectionValues q))
      (sectionValues sk) with
  | error e2 =>
    rw [hsk] at h
    simp only [mapError, errorBind] at h
    injection h with h
    subst h
    obtain ⟨x, hx, hxe⟩ := validateEach_error_mem hsk
    rcases check_sinks_error hxe with ⟨hnm, rfl⟩ | ⟨q2, hq2, hnm, rfl⟩
    · exact ⟨x.ID, "material_type", x.material_type, _, rfl,
        Or.inr (Or.inr (Or.inr (Or.inr (Or.inl ⟨x, hx, rfl, Or.inl ⟨rfl, rfl, hnm⟩⟩))))⟩
    · exact ⟨x.ID, "input_queues", q2, _, rfl,
        Or.inr (Or.inr (Or.inr (Or.inr (Or.inl ⟨x, hx, rfl, Or.inr ⟨rfl, hq2, hnm⟩⟩))))⟩
  | ok skv =>
  rw [hsk] at h
  obtain ⟨rfl, -⟩ :=
    validateEach_ok_forall (fun x y hy => ((check_sinks_ok_iff _ _ _ _).mp hy).1) hsk
  simp only [mapOk, okBind] at h
  try dsimp only at h
  cases hso : validateEach
      (check_sources (sectionValues tm) (sectionValues m) (sectionValues q))
      (sectionValues so) with
  | error e2 =>
    rw [hso] at h
    simp only [mapError, errorBind] at h
    injection h with h
    subst h
    obtain ⟨x, hx, hxe⟩ := validateEach_error_mem hso
    rcases check_sources_error hxe with ⟨hnm, rfl⟩ | ⟨hnm, rfl⟩ | ⟨q2, hq2, hnm, rfl⟩
    · exact ⟨x.ID, "time_model_id", x.time_model_id, _, rfl,
        Or.inr (Or.inr (Or.inr (Or.inr (Or.inr ⟨x, hx, rfl, Or.inl ⟨rfl, rfl, hnm⟩⟩))))⟩
    · exact ⟨x.ID, "material_type", x.material_type, _, rfl,
        Or.inr (Or.inr (Or.inr (Or.inr (Or.inr ⟨x, hx, rfl, Or.inr (Or.inl ⟨rfl, rfl, hnm⟩)⟩))))⟩
    · exact ⟨x.ID, "output_queues", q2, _, rfl,
        Or.inr (Or.inr (Or.inr (Or.inr (Or.inr ⟨x, hx, rfl, Or.inr (Or.inr ⟨rfl, hq2, hnm⟩)⟩))))⟩
  | ok sov =>
    rw [hso] at h
    simp only [mapOk] at h
    exact Except.noConfusion h

theorem load_incomplete {d : Document} (hnc : ¬ d.complete)
    (hcp : checksPass (graphOf d)) :
    ∃ name, load d = .error (.missingSection name) ∧ sectionAbsent d name := by
  obtain ⟨os, otm, ost, opr, oq, orr, om, osk, oso⟩ := d
  cases os with
  | none =>
    exact ⟨"seed", by simp [load, read_data, getSection, errorBind],
      Or.inl ⟨rfl, rfl⟩⟩
  | some s =>
  cases otm with
  | none =>
    exact ⟨"time_models",
      by simp [load, read_data, getSection, okBind, errorBind],
      Or.inr (Or.inl ⟨rfl, rfl⟩)⟩
  | some tm =>
  cases ost with
  | none =>
    exact ⟨"states",
      by simp [load, read_data, getSection, okBind, errorBind,
        Adapter.assign_time_model_data],
      Or.inr (Or.inr (Or.inl ⟨rfl, rfl⟩))⟩
  | some st =>
  simp only [checksPass, graphOf, secValuesD, Option.getD_some] at hcp
  have hstall : validateEach (check_states (sectionValues tm)) (sectionValues st) =
      .ok (sectionValues st) :=
    validateEach_ok_of_all fun x hx => (check_states_ok_iff _ _ _).mpr ⟨rfl, hcp.1 x hx⟩
  cases opr with
  | none =>
    exact ⟨"processes",
      by simp [load, read_data, getSection, okBind, errorBind,
        Adapter.assign_time_model_data, Adapter.assign_state_data, hstall, mapOk],
      Or.inr (Or.inr (Or.inr (Or.inl ⟨rfl, rfl⟩)))⟩
  | some pr =>
  have hprall : validateEach (check_processes (sectionValues tm)) (sectionValues pr) =
      .ok (sectionValues pr) :=
    validateEach_ok_of_all fun x hx =>
      (check_processes_ok_iff _ _ _).mpr ⟨rfl, hcp.2.1 x hx⟩
  cases oq with
  | none =>
    exact ⟨"queues",
      by simp [load, read_data, getSection, okBind, errorBind,
        Adapter.assign_time_model_data, Adapter.assign_state_data,
        Adapter.assign_process_data, hstall, hprall, mapOk],
      Or.inr (Or.inr (Or.inr (Or.inr (Or.inl ⟨rfl, rfl⟩))))⟩
  | some q =>
  cases orr with
  | none =>
    exact ⟨"resources",
      by simp [load, read_data, getSection, okBind, errorBind,
        Adapter.assign_time_model_data, Adapter.assign_state_data,
        Adapter.assign_process_data, Adapter.assign_queue_data, hstall, hprall, mapOk],
      Or.inr (Or.inr (Or.inr (Or.inr (Or.inr (Or.inl ⟨rfl, rfl⟩)))))⟩
  | some r =>
  have hreall : validateEach
      (check_resources (sectionValues pr) (sectionValues st) (sectionValues q))
      (sectionValues r) = .ok (sectionValues r) :=
    validateEach_ok_of_all fun x hx => (check_resources_ok_iff _ _ _ _ _).mpr
      ⟨rfl, (hcp.2.2.1 x hx).1, (hcp.2.2.1 x hx).2.1, (hcp.2.2.1 x hx).2.2⟩
  cases om with
  | none =>
    exact ⟨"materials",
      by simp [load, read_data, getSection, okBind, errorBind,
        Adapter.assign_time_model_data, Adapter.assign_state_data,
        Adapter.assign_process_data, Adapter.assign_queue_data,
        Adapter.assign_resource_data, hstall, hprall, hreall, mapOk],
      Or.inr (Or.inr (Or.inr (Or.inr (Or.inr (Or.inr (Or.inl ⟨rfl, rfl⟩))))))⟩
  | some m =>
  have hmaall : validateEach (check_materials (sectionValues pr)) (sectionValues m) =
      .ok (sectionValues m) :=
    validateEach_ok_of_all fun x hx => (check_materials_ok_iff _ _ _).mpr
      ⟨rfl, (hcp.2.2.2.1 x hx).1, (hcp.2.2.2.1 x hx).2⟩
  cases osk with
  | none =>
    exact ⟨"sinks",
      by simp [load, read_data, getSection, okBind, errorBind,
        Adapter.assign_time_model_data, Adapter.assign_state_data,
        Adapter.assign_process_data, Adapter.assign_queue_data,
        Adapter.assign_resource_data, Adapter.assign_material_data,
        hstall, hprall, hreall, hmaall, mapOk],
      Or.inr (Or.inr (Or.inr (Or.inr (Or.inr (Or.inr (Or.inr (Or.inl ⟨rfl, rfl⟩)))))))⟩
  | some sk =>
  have hskall : validateEach (check_sinks (sectionValues m) (sectionValues q))
      (sectionValues sk) = .ok (sectionValues sk) :=
    validateEach_ok_of_all fun x hx => (check_sinks_ok_iff _ _ _ _).mpr
      ⟨rfl, (hcp.2.2.2.2.1 x hx).1, (hcp.2.2.2.2.1 x hx).2⟩
  cases oso with
  | none =>
    exact ⟨"sources",
      by simp [load, read_data, getSection, okBind, errorBind,
        Adapter.assign_time_model_data, Adapter.assign_state_data,
        Adapter.assign_process_data, Adapter.assign_queue_data,
        Adapter.assign_resource_data, Adapter.assign_material_data,
        Adapter.assign_sink_data, hstall, hprall, hreall, hmaall, hskall, mapOk],
      Or.inr (Or.inr (Or.inr (Or.inr (Or.inr (Or.inr (Or.inr (Or.inr ⟨rfl, rfl⟩)))))))⟩
  | some so =>
    exact absurd (by simp [Document.complete]) hnc

theorem docViolation_not_checksPass {d : Document} {X f y : String}
    (h : docViolation d X f y) : ¬ checksPass (graphOf d) := by
  intro hcp
  obtain ⟨c1, c2, c3, c4, c5, c6⟩ := hcp
  simp only [graphOf] at c1 c2 c3 c4 c5 c6
  rcases h with ⟨s, hs, -, -, rfl, hnm⟩ | ⟨p, hp, -, -, rfl, hnm⟩ |
    ⟨r, hr, -, hsub⟩ | ⟨m, hm, -, hsub⟩ | ⟨sk, hsk, -, hsub⟩ | ⟨so, hso, -, hsub⟩
  · exact hnm (c1 s hs)
  · exact hnm (c2 p hp)
  · rcases hsub with ⟨-, hmem, hnm⟩ | ⟨-, hmem, hnm⟩ | ⟨-, hmem, hnm⟩
    · exact hnm ((c3 r hr).1 y hmem)
    · exact hnm ((c3 r hr).2.1 y hmem)
    · exact hnm ((c3 r hr).2.2 y hmem)
  · rcases hsub with ⟨-, rfl, hnm⟩ | ⟨-, hmem, hnm⟩
    · exact hnm (c4 m hm).1
    · exact hnm ((c4 m hm).2 y hmem)
  · rcases hsub with ⟨-, rfl, hnm⟩ | ⟨-, hmem, hnm⟩
    · exact hnm (c5 sk hsk).1
    · exact hnm ((c5 sk hsk).2 y hmem)
  · rcases hsub with ⟨-, rfl, hnm⟩ | ⟨-, rfl, hnm⟩ | ⟨-, hmem, hnm⟩
    · exact hnm (c6 so hso).1
    · exact hnm (c6 so hso).2.1
    · exact hnm ((c6 so hso).2.2 y hmem)

/-! ## C1 -/

/-- C1: for every document that loads successfully, every reference field of
every entity in the returned Graph resolves within the Graph's own
collections: states' and processes' `time_model_id` in the time models,
resources' `processes`/`states` entries in the processes/states, materials'
`transport_process` (and, when present, every `processes` entry) in the
processes, sinks' `material_type` in the materials and `input_queues` in the
queues, and sources' `time_model_id`/`material_type`/`output_queues` in the
time models/materials/queues. -/
theorem load_ok_references_resolve (d : Document) (g : Adapter)
    (h : load d = .ok g) :
    (∀ s ∈ g.state_data,
      s.time_model_id ∈ get_set_of_IDs TimeModelData.ID g.time_model_data) ∧
    (∀ p ∈ g.process_data,
      p.time_model_id ∈ get_set_of_IDs TimeModelData.ID g.time_model_data) ∧
    (∀ r ∈ g.resource_data,
      (∀ p ∈ ResourceData.processes r, p ∈ get_set_of_IDs ProcessData.ID g.process_data) ∧
      (∀ s ∈ ResourceData.states r, s ∈ get_set_of_IDs StateData.ID g.state_data)) ∧
    (∀ m ∈ g.material_data,
      m.transport_process ∈ get_set_of_IDs ProcessData.ID g.process_data ∧
      ∀ ps, m.processes = some ps →
        ∀ p ∈ ps, p ∈ get_set_of_IDs ProcessData.ID g.process_data) ∧
    (∀ sk ∈ g.sink_data,
      sk.material_type ∈ get_set_of_IDs MaterialData.ID g.material_data ∧
      ∀ q ∈ sk.input_queues, q ∈ get_set_of_IDs QueueData.ID g.queue_data) ∧
    (∀ so ∈ g.source_data,
      so.time_model_id ∈ get_set_of_IDs TimeModelData.ID g.time_model_data ∧
      so.material_type ∈ get_set_of_IDs MaterialData.ID g.material_data ∧
      ∀ q ∈ so.output_queues, q ∈ get_set_of_IDs QueueData.ID g.queue_data) := by
  obtain ⟨-, -, hcp⟩ := load_ok_elim h
  obtain ⟨c1, c2, c3, c4, c5, c6⟩ := hcp
  refine ⟨c1, c2, fun r hr => ⟨(c3 r hr).1, (c3 r hr).2.1⟩, ?_, c5, c6⟩
  intro m hm
  refine ⟨(c4 m hm).1, ?_⟩
  intro ps hps p hp
  have := (c4 m hm).2
  rw [hps] at this
  exact this p hp

/-- Witness for C1: `exDoc` loads successfully and the resolution property
holds on the resulting graph. -/
theorem load_ok_references_resolve_witness :
    load exDoc = .ok (graphOf exDoc) ∧
    (∀ s ∈ (graphOf exDoc).state_data,
      s.time_model_id ∈ get_set_of_IDs TimeModelData.ID (graphOf exDoc).time_model_data) :=
  ⟨rfl, (load_ok_references_resolve exDoc (graphOf exDoc) rfl).1⟩

/-! ## C2 -/

/-- C2: for every complete document in which some entity `X` declares a
reference to an ID `y` in field `f` with no matching entity in the target
collection, `load` fails with a dangling-reference error naming a
referencing entity, the reference field, the offending target ID and the
set of valid IDs at that point — and the named triple is a genuine
violation of the document.  `load` does not return a Graph. -/
theorem dangling_reference_fails_load (d : Document) (X0 f0 y0 : String)
    (hc : d.complete) (hv : docViolation d X0 f0 y0) :
    (∀ g, load d ≠ .ok g) ∧
    ∃ X f y S, load d = .error (.danglingReference X f y S) ∧ docViolation d X f y := by
  have hnot := docViolation_not_checksPass hv
  cases hload : load d with
  | ok g =>
    obtain ⟨-, rfl, hcp⟩ := load_ok_elim hload
    exact absurd hcp hnot
  | error e =>
    obtain ⟨X, f, y, S, rfl, hviol⟩ := load_error_complete hc hload
    exact ⟨fun g hg => Except.noConfusion hg, X, f, y, S, rfl, hviol⟩

/-- Witness for C2: `exBadDoc` (state `s1` references missing `tm2`) fails
to load with the expected dangling-reference error. -/
theorem dangling_reference_fails_load_witness :
    exBadDoc.complete ∧ docViolation exBadDoc "s1" "time_model_id" "tm2" ∧
    ∃ X f y S, load exBadDoc = .error (.danglingReference X f y S) ∧
      docViolation exBadDoc X f y := by
  have hc : exBadDoc.complete := by decide
  have hv : docViolation exBadDoc "s1" "time_model_id" "tm2" :=
    Or.inl ⟨⟨"s1", "tm2"⟩, by decide, rfl, rfl, rfl, by decide⟩
  exact ⟨hc, hv, (dangling_reference_fails_load exBadDoc _ _ _ hc hv).2⟩

/-! ## C3 -/

theorem sectionValues_dict (l : List α) :
    sectionValues (get_dict_of_list_objects l) = l := by
  simp only [sectionValues, get_dict_of_list_objects, List.map_map]
  have : (Prod.snd ∘ fun p : Nat × α => (toString p.1, p.2)) = Prod.snd := rfl
  rw [this, List.enum_map_snd]

/-- C3: round-trip — dumping a validated Graph to the document shape
(positional 0-based keys) and loading the result yields a Graph with the
same entities in all eight collections and the same seed. -/
theorem round_trip_load_dump (g : Adapter) (h : checksPass g) :
    ∃ g', load (get_dict_object_of_adapter g) = .ok g' ∧
      g'.time_model_data = g.time_model_data ∧ g'.state_data = g.state_data ∧
      g'.process_data = g.process_data ∧ g'.queue_data = g.queue_data ∧
      g'.resource_data = g.resource_data ∧ g'.material_data = g.material_data ∧
      g'.sink_data = g.sink_data ∧ g'.source_data = g.source_data ∧
      g'.seed = g.seed := by
  have hc : (get_dict_object_of_adapter g).complete := by
    simp [Document.complete, get_dict_object_of_adapter]
  have hcoll : graphOf (get_dict_object_of_adapter g) =
      { valid_configuration := true, reconfiguration_cost := 0,
        time_model_data := g.time_model_data, state_data := g.state_data,
        process_data := g.process_data, queue_data := g.queue_data,
        resource_data := g.resource_data, material_data := g.material_data,
        sink_data := g.sink_data, source_data := g.source_data, seed := g.seed } := by
    simp [graphOf, get_dict_object_of_adapter, secValuesD, sectionValues_dict]
  have hcp : checksPass (graphOf (get_dict_object_of_adapter g)) := by
    rw [hcoll]
    exact h
  exact ⟨graphOf (get_dict_object_of_adapter g), load_ok_intro hc hcp,
    by rw [hcoll], by rw [hcoll], by rw [hcoll], by rw [hcoll], by rw [hcoll],
    by rw [hcoll], by rw [hcoll], by rw [hcoll], by rw [hcoll]⟩

/-- Witness for C3: the validated graph loaded from `exDoc` round-trips. -/
theorem round_trip_load_dump_witness :
    checksPass (graphOf exDoc) ∧
    ∃ g', load (get_dict_object_of_adapter (graphOf exDoc)) = .ok g' ∧
      g'.time_model_data = (graphOf exDoc).time_model_data ∧
      g'.state_data = (graphOf exDoc).state_data ∧
      g'.process_data = (graphOf exDoc).process_data ∧
      g'.queue_data = (graphOf exDoc).queue_data ∧
      g'.resource_data = (graphOf exDoc).resource_data ∧
      g'.material_data = (graphOf exDoc).material_data ∧
      g'.sink_data = (graphOf exDoc).sink_data ∧
      g'.source_data = (graphOf exDoc).source_data ∧
      g'.seed = (graphOf exDoc).seed := by
  have h : checksPass (graphOf exDoc) := by decide
  exact ⟨h, round_trip_load_dump (graphOf exDoc) h⟩

/-! ## C4 -/

theorem firstDangling_isSome {refs valid : List String} {y : String}
    (hy : y ∈ refs) (hnm : y ∉ valid) : ∃ p, firstDangling refs valid = some p := by
  have : (firstDangling refs valid).isSome := by
    rw [firstDangling, List.find?_isSome]
    exact ⟨y, hy, by simpa using hnm⟩
  exact Option.isSome_iff_exists.mp this

/-- C4: Material optional-field semantics.  With the `transport_process`
reference resolving, a material with `processes` absent is accepted no
matter what the process collection holds; one with `processes = []` is
accepted; one whose `processes` list holds an ID missing from the process
collection is rejected with a dangling-reference error on the `processes`
field.  And regardless of the `processes` field, any material whose
`transport_process` does not resolve is rejected with a dangling-reference
error on `transport_process`. -/
theorem material_optional_processes_semantics (pd : List ProcessData)
    (m : MaterialData)
    (ht : m.transport_process ∈ get_set_of_IDs ProcessData.ID pd) :
    (m.processes = none → check_materials pd m = .ok m) ∧
    (m.processes = some [] → check_materials pd m = .ok m) ∧
    (∀ ps y, m.processes = some ps → y ∈ ps →
      y ∉ get_set_of_IDs ProcessData.ID pd →
      ∃ p, check_materials pd m =
          .error (.danglingReference m.ID "processes" p
            (get_set_of_IDs ProcessData.ID pd)) ∧
        p ∈ ps ∧ p ∉ get_set_of_IDs ProcessData.ID pd) ∧
    (∀ m' : MaterialData, m'.transport_process ∉ get_set_of_IDs ProcessData.ID pd →
      check_materials pd m' =
        .error (.danglingReference m'.ID "transport_process" m'.transport_process
          (get_set_of_IDs ProcessData.ID pd))) := by
  refine ⟨?_, ?_, ?_, ?_⟩
  · intro hmp
    exact (check_materials_ok_iff pd m m).mpr ⟨rfl, ht, by simp [hmp]⟩
  · intro hmp
    exact (check_materials_ok_iff pd m m).mpr ⟨rfl, ht, by simp [hmp]⟩
  · intro ps y hmp hy hnm
    obtain ⟨p, hp⟩ := firstDangling_isSome hy hnm
    have hm := firstDangling_some hp
    refine ⟨p, ?_, hm.1, hm.2⟩
    simp only [check_materials, if_pos ht, hmp]
    try dsimp only
    rw [hp]
  · intro m' hnt
    simp only [check_materials, if_neg hnt]

/-- Witness for C4: with the single process `p1`, a material with absent
`processes` and one with `processes = []` are accepted, one listing the
missing process `p2` is rejected on the `processes` field, and one with a
missing transport process is rejected on `transport_process`. -/
theorem material_optional_processes_semantics_witness :
    ("p1" ∈ get_set_of_IDs ProcessData.ID [⟨"p1", "tm1"⟩]) ∧
    check_materials [⟨"p1", "tm1"⟩] ⟨"m1", "p1", none⟩ = .ok ⟨"m1", "p1", none⟩ ∧
    check_materials [⟨"p1", "tm1"⟩] ⟨"m1", "p1", some []⟩ = .ok ⟨"m1", "p1", some []⟩ ∧
    (∃ p, check_materials [⟨"p1", "tm1"⟩] ⟨"m1", "p1", some ["p2"]⟩ =
        .error (.danglingReference "m1" "processes" p
          (get_set_of_IDs ProcessData.ID [⟨"p1", "tm1"⟩])) ∧
      p ∈ ["p2"] ∧ p ∉ get_set_of_IDs ProcessData.ID [⟨"p1", "tm1"⟩]) ∧
    check_materials [⟨"p1", "tm1"⟩] ⟨"m3", "p9", none⟩ =
      .error (.danglingReference "m3" "transport_process" "p9"
        (get_set_of_IDs ProcessData.ID [⟨"p1", "tm1"⟩])) := by
  refine ⟨by decide, ?_, ?_, ?_, ?_⟩
  · exact (material_optional_processes_semantics [⟨"p1", "tm1"⟩] ⟨"m1", "p1", none⟩
      (by decide)).1 rfl
  · exact (material_optional_processes_semantics [⟨"p1", "tm1"⟩] ⟨"m1", "p1", some []⟩
      (by decide)).2.1 rfl
  · exact (material_optional_processes_semantics [⟨"p1", "tm1"⟩] ⟨"m1", "p1", some ["p2"]⟩
      (by decide)).2.2.1 ["p2"] "p2" rfl (by decide) (by decide)
  · exact (material_optional_processes_semantics [⟨"p1", "tm1"⟩] ⟨"m1", "p1", none⟩
      (by decide)).2.2.2 ⟨"m3", "p9", none⟩ (by decide)

/-! ## C5 -/

/-- C5: resource variant dispatch.  A base (non-production-capable) resource
is validated independently of the queue collection — only its `processes`
and `states` reference lists decide acceptance — while a production-capable
resource is additionally required to have every `input_queues` and
`output_queues` entry resolve among the queue IDs, else validation does not
accept it. -/
theorem resource_variant_dispatch (pd : List ProcessData) (sd : List StateData) :
    (∀ (qd qd' : List QueueData) (i : String) (pcs sts : List String),
      check_resources pd sd qd (.base i pcs sts) =
        check_resources pd sd qd' (.base i pcs sts)) ∧
    (∀ (qd : List QueueData) (i : String) (pcs sts : List String),
      check_resources pd sd qd (.base i pcs sts) = .ok (.base i pcs sts) ↔
        (∀ p ∈ pcs, p ∈ get_set_of_IDs ProcessData.ID pd) ∧
        (∀ s ∈ sts, s ∈ get_set_of_IDs StateData.ID sd)) ∧
    (∀ (qd : List QueueData) (i : String) (pcs sts iq oq : List String),
      check_resources pd sd qd (.production i pcs sts iq oq) =
          .ok (.production i pcs sts iq oq) ↔
        (∀ p ∈ pcs, p ∈ get_set_of_IDs ProcessData.ID pd) ∧
        (∀ s ∈ sts, s ∈ get_set_of_IDs StateData.ID sd) ∧
        (∀ q ∈ iq ++ oq, q ∈ get_set_of_IDs QueueData.ID qd)) := by
  refine ⟨?_, ?_, ?_⟩
  · intro qd qd' i pcs sts
    simp only [check_resources, ResourceData.processes, ResourceData.states,
      ResourceData.ID]
  · intro qd i pcs sts
    rw [check_resources_ok_iff]
    simp [ResourceData.processes, ResourceData.states, ResourceData.queueRefs]
  · intro qd i pcs sts iq oq
    rw [check_resources_ok_iff]
    simp [ResourceData.processes, ResourceData.states, ResourceData.queueRefs]

/-- Witness for C5: the base resource `r2` validates identically against an
empty and a non-empty queue collection and is accepted without any queues;
the production resource `r1` referencing queue `q1` is rejected when the
queue collection is empty. -/
theorem resource_variant_dispatch_witness :
    check_resources [⟨"p1", "tm1"⟩] [⟨"s1", "tm1"⟩] [] (.base "r2" ["p1"] ["s1"]) =
      check_resources [⟨"p1", "tm1"⟩] [⟨"s1", "tm1"⟩] [⟨"q1", 5⟩]
        (.base "r2" ["p1"] ["s1"]) ∧
    check_resources [⟨"p1", "tm1"⟩] [⟨"s1", "tm1"⟩] [] (.base "r2" ["p1"] ["s1"]) =
      .ok (.base "r2" ["p1"] ["s1"]) ∧
    check_resources [⟨"p1", "tm1"⟩] [⟨"s1", "tm1"⟩] []
        (.production "r1" ["p1"] ["s1"] ["q1"] []) ≠
      .ok (.production "r1" ["p1"] ["s1"] ["q1"] []) := by
  refine ⟨(resource_variant_dispatch _ _).1 [] [⟨"q1", 5⟩] "r2" ["p1"] ["s1"], ?_, ?_⟩
  · exact ((resource_variant_dispatch _ _).2.1 [] "r2" ["p1"] ["s1"]).mpr
      ⟨by decide, by decide⟩
  · intro hok
    have hq := (((resource_variant_dispatch _ _).2.2 [] "r1" ["p1"] ["s1"] ["q1"] []).mp
      hok).2.2 "q1" (by decide)
    exact absurd hq (by decide)

/-! ## C6 -/

/-- C6 counterexample: loading a document with two same-ID records in one
collection neither fails nor overwrites — `dupDoc` loads successfully and
the resulting time-model collection holds two entities with the same ID
`tm1`, contradicting both policies the claim allows. -/
theorem duplicate_ids_kept_counterexample :
    load dupDoc = .ok (graphOf dupDoc) ∧
    (graphOf dupDoc).time_model_data = [⟨"tm1"⟩, ⟨"tm1"⟩] ∧
    List.map TimeModelData.ID (graphOf dupDoc).time_model_data = ["tm1", "tm1"] :=
  ⟨rfl, rfl, rfl⟩

/-- C6 amended: ID uniqueness is not enforced at load time — a document in
which two records of the same collection share an ID loads successfully and
both records are kept verbatim, so the resulting collection can contain two
entities with the same ID. -/
theorem duplicate_ids_load_keeps_all (t1 t2 : TimeModelData) (h : t1.ID = t2.ID) :
    ∃ g, load (pairDoc t1 t2) = .ok g ∧
      g.time_model_data = [t1, t2] ∧
      List.map TimeModelData.ID g.time_model_data = [t1.ID, t1.ID] := by
  refine ⟨graphOf (pairDoc t1 t2), load_ok_intro ?_ ?_, ?_, ?_⟩
  · simp [Document.complete, pairDoc]
  · refine ⟨?_, ?_, ?_, ?_, ?_, ?_⟩ <;> simp [graphOf, secValuesD, sectionValues, pairDoc]
  · simp [graphOf, secValuesD, sectionValues, pairDoc]
  · simp [graphOf, secValuesD, sectionValues, pairDoc, h]

/-- Witness for the amended C6, at two concrete records sharing ID `tm1`. -/
theorem duplicate_ids_load_keeps_all_witness :
    (⟨"tm1"⟩ : TimeModelData).ID = (⟨"tm1"⟩ : TimeModelData).ID ∧
    ∃ g, load (pairDoc ⟨"tm1"⟩ ⟨"tm1"⟩) = .ok g ∧
      g.time_model_data = [⟨"tm1"⟩, ⟨"tm1"⟩] ∧
      List.map TimeModelData.ID g.time_model_data =
        [(⟨"tm1"⟩ : TimeModelData).ID, (⟨"tm1"⟩ : TimeModelData).ID] :=
  ⟨rfl, duplicate_ids_load_keeps_all ⟨"tm1"⟩ ⟨"tm1"⟩ rfl⟩

/-! ## C7 -/

/-- C7 counterexample: `badIncompleteDoc` is missing the required `sinks`
key, yet `load` fails with a dangling-reference error (the state check runs
before the `sinks` key is read), not with a missing-section error. -/
theorem missing_section_counterexample :
    badIncompleteDoc.sinks = none ∧
    load badIncompleteDoc =
      .error (.danglingReference "s1" "time_model_id" "tm2" ["tm1"]) ∧
    isMissingSectionError (load badIncompleteDoc) = false :=
  ⟨rfl, rfl, rfl⟩

/-- C7 amended: when a required top-level key is absent, `load` never
returns a Graph; and whenever every reference among the present sections
resolves, the reported error is a missing-section error naming an absent
key.  (A dangling reference detected in a section read before the absent
key is reported instead.) -/
theorem missing_section_fails_load (d : Document) (hnc : ¬ d.complete) :
    (∀ g, load d ≠ .ok g) ∧
    (checksPass (graphOf d) →
      ∃ name, load d = .error (.missingSection name) ∧ sectionAbsent d name) := by
  constructor
  · intro g hg
    obtain ⟨hcomp, -, -⟩ := load_ok_elim hg
    exact hnc hcomp
  · intro hcp
    exact load_incomplete hnc hcp

/-- Witness for the amended C7 at `incompleteDoc`. -/
theorem missing_section_fails_load_witness :
    (¬ incompleteDoc.complete) ∧ checksPass (graphOf incompleteDoc) ∧
    ∃ name, load incompleteDoc = .error (.missingSection name) ∧
      sectionAbsent incompleteDoc name := by
  have hnc : ¬ incompleteDoc.complete := by decide
  have hcp : checksPass (graphOf incompleteDoc) := by decide
  exact ⟨hnc, hcp, (missing_section_fails_load incompleteDoc hnc).2 hcp⟩

/-! ## C8 -/

theorem exceptMap_ok_elim {α β : Type} {x : Except LoadError α} {f : α → β} {r : β}
    (h : x.map f = .ok r) : ∃ a, x = .ok a ∧ r = f a := by
  cases x with
  | error e => exact Except.noConfusion h
  | ok a =>
    injection h with h
    exact ⟨a, rfl, h.symm⟩

/-- C8 counterexample: a freshly constructed adapter — the draft Graph on
which no validation has been attempted — already has `valid_configuration`
set to `true` (the field's declared default), contradicting the claim that
the flag is unset until the Referential Validator succeeds. -/
theorem valid_configuration_counterexample :
    ({} : Adapter).valid_configuration = true ∧
    ({} : Adapter).time_model_data = [] ∧ ({} : Adapter).state_data = [] :=
  ⟨rfl, rfl, rfl⟩

/-- C8 amended: `valid_configuration` is initialized `true` and never
modified — it is `true` on a freshly constructed draft, `true` on every
successfully loaded Graph, and left unchanged by every collection
assignment. -/
theorem valid_configuration_always_true (d : Document) (g : Adapter) :
    ({} : Adapter).valid_configuration = true ∧
    (load d = .ok g → g.valid_configuration = true) ∧
    (∀ (a r : Adapter) (v : List TimeModelData),
      a.assign_time_model_data v = .ok r →
      r.valid_configuration = a.valid_configuration) ∧
    (∀ (a r : Adapter) (v : List StateData), a.assign_state_data v = .ok r →
      r.valid_configuration = a.valid_configuration) ∧
    (∀ (a r : Adapter) (v : List ProcessData), a.assign_process_data v = .ok r →
      r.valid_configuration = a.valid_configuration) ∧
    (∀ (a r : Adapter) (v : List QueueData), a.assign_queue_data v = .ok r →
      r.valid_configuration = a.valid_configuration) ∧
    (∀ (a r : Adapter) (v : List ResourceData), a.assign_resource_data v = .ok r →
      r.valid_configuration = a.valid_configuration) ∧
    (∀ (a r : Adapter) (v : List MaterialData), a.assign_material_data v = .ok r →
      r.valid_configuration = a.valid_configuration) ∧
    (∀ (a r : Adapter) (v : List SinkData), a.assign_sink_data v = .ok r →
      r.valid_configuration = a.valid_configuration) ∧
    (∀ (a r : Adapter) (v : List SourceData), a.assign_source_data v = .ok r →
      r.valid_configuration = a.valid_configuration) := by
  refine ⟨rfl, ?_, ?_, ?_, ?_, ?_, ?_, ?_, ?_, ?_⟩
  · intro h
    obtain ⟨-, rfl, -⟩ := load_ok_elim h
    rfl
  · intro a r v h
    injection h with h
    rw [← h]
  · intro a r v h
    obtain ⟨v2, -, rfl⟩ := exceptMap_ok_elim h
    rfl
  · intro a r v h
    obtain ⟨v2, -, rfl⟩ := exceptMap_ok_elim h
    rfl
  · intro a r v h
    injection h with h
    rw [← h]
  · intro a r v h
    obtain ⟨v2, -, rfl⟩ := exceptMap_ok_elim h
    rfl
  · intro a r v h
    obtain ⟨v2, -, rfl⟩ := exceptMap_ok_elim h
    rfl
  · intro a r v h
    obtain ⟨v2, -, rfl⟩ := exceptMap_ok_elim h
    rfl
  · intro a r v h
    obtain ⟨v2, -, rfl⟩ := exceptMap_ok_elim h
    rfl

/-- Witness for the amended C8: the graph loaded from `exDoc` has the flag
`true`, and reassigning its state collection keeps the flag value. -/
theorem valid_configuration_always_true_witness :
    load exDoc = .ok (graphOf exDoc) ∧
    (graphOf exDoc).valid_configuration = true ∧
    ((graphOf exDoc).assign_state_data [⟨"s1", "tm1"⟩] =
      .ok { graphOf exDoc with state_data := [⟨"s1", "tm1"⟩] }) ∧
    ({ graphOf exDoc with
        state_data := [⟨"s1", "tm1"⟩] } : Adapter).valid_configuration =
      (graphOf exDoc).valid_configuration := by
  have hl : load exDoc = .ok (graphOf exDoc) := rfl
  have ha : (graphOf exDoc).assign_state_data [⟨"s1", "tm1"⟩] =
      .ok { graphOf exDoc with state_data := [⟨"s1", "tm1"⟩] } := rfl
  exact ⟨hl, (valid_configuration_always_true exDoc (graphOf exDoc)).2.1 hl,
    ha, (valid_configuration_always_true exDoc (graphOf exDoc)).2.2.2.1
      (graphOf exDoc) _ [⟨"s1", "tm1"⟩] ha⟩

/-! ## C9 -/

/-- C9: assignment-time re-validation.  Assigning the state collection
re-runs the state validator against the adapter's current time models: an
assignment in which a state references a non-existent time model fails with
a dangling-reference error naming the state, the `time_model_id` field, the
offending target and the valid time-model IDs — it does not silently
succeed — and any assignment that does succeed installed exactly the
assigned list, every element of which was checked against the current
time-model collection. -/
theorem assignment_revalidates_state_data (a : Adapter) (s1 : StateData)
    (h : s1.time_model_id ∉ get_set_of_IDs TimeModelData.ID a.time_model_data) :
    a.assign_state_data [s1] =
      .error (.danglingReference s1.ID "time_model_id" s1.time_model_id
        (get_set_of_IDs TimeModelData.ID a.time_model_data)) ∧
    (∀ r, a.assign_state_data [s1] ≠ .ok r) ∧
    (∀ (v : List StateData) (r : Adapter), a.assign_state_data v = .ok r →
      r.state_data = v ∧
      ∀ s ∈ v, s.time_model_id ∈ get_set_of_IDs TimeModelData.ID a.time_model_data) := by
  have hc : check_states a.time_model_data s1 =
      .error (.danglingReference s1.ID "time_model_id" s1.time_model_id
        (get_set_of_IDs TimeModelData.ID a.time_model_data)) := by
    simp [check_states, h]
  have hassign : a.assign_state_data [s1] =
      .error (.danglingReference s1.ID "time_model_id" s1.time_model_id
        (get_set_of_IDs TimeModelData.ID a.time_model_data)) := by
    simp [Adapter.assign_state_data, validateEach, hc, mapError]
  refine ⟨hassign, ?_, ?_⟩
  · intro r hr
    rw [hassign] at hr
    exact Except.noConfusion hr
  · intro v r hv
    obtain ⟨v2, hveq, rfl⟩ := exceptMap_ok_elim hv
    obtain ⟨rfl, hall⟩ := validateEach_ok_forall
      (fun x y hy => ((check_states_ok_iff _ _ _).mp hy).1) hveq
    exact ⟨rfl, fun s hs => ((check_states_ok_iff _ _ _).mp (hall s hs)).2⟩

/-- Witness for C9: on the graph `g0` (time model `tm1`, state `s1`
referencing it), reassigning the state collection so that `s1` references
the non-existent `tm2` fails with the expected error. -/
theorem assignment_revalidates_state_data_witness :
    ("tm2" ∉ get_set_of_IDs TimeModelData.ID g0.time_model_data) ∧
    g0.assign_state_data [⟨"s1", "tm2"⟩] =
      .error (.danglingReference "s1" "time_model_id" "tm2" ["tm1"]) := by
  have h : ("tm2" : String) ∉ get_set_of_IDs TimeModelData.ID g0.time_model_data := by
    decide
  exact ⟨h, (assignment_revalidates_state_data g0 ⟨"s1", "tm2"⟩ h).1⟩

/-! ## C10 -/

/-- C10: assignment-time validation runs only the checks attached to the
assigned field, never the checks of fields that reference it.  Assigning
`time_model_data` or `queue_data` (fields with no validator) always
succeeds; assigning `process_data := []` or `material_data := []` succeeds
(their validators run vacuously on the empty list); and a `time_model_data`
assignment leaves the state collection and the `valid_configuration` flag
untouched, so states whose references then dangle remain in place. -/
theorem assignment_checks_only_assigned_field (a : Adapter) :
    (∀ v : List TimeModelData, a.assign_time_model_data v =
      .ok { a with time_model_data := v }) ∧
    (∀ v : List QueueData, a.assign_queue_data v = .ok { a with queue_data := v }) ∧
    (a.assign_process_data [] = .ok { a with process_data := [] }) ∧
    (a.assign_material_data [] = .ok { a with material_data := [] }) ∧
    (∀ v : List TimeModelData,
      ({ a with time_model_data := v } : Adapter).state_data = a.state_data ∧
      ({ a with time_model_data := v } : Adapter).valid_configuration =
        a.valid_configuration) :=
  ⟨fun _ => rfl, fun _ => rfl, rfl, rfl, fun _ => ⟨rfl, rfl⟩⟩

/-- Witness for C10: emptying `g0`'s time-model collection succeeds with no
error although its state `s1` still references `tm1`, which then resolves
nowhere; `valid_configuration` stays `true`. -/
theorem assignment_checks_only_assigned_field_witness :
    g0.assign_time_model_data [] = .ok { g0 with time_model_data := [] } ∧
    ({ g0 with time_model_data := [] } : Adapter).state_data = [⟨"s1", "tm1"⟩] ∧
    ("tm1" ∉ get_set_of_IDs TimeModelData.ID
      ({ g0 with time_model_data := [] } : Adapter).time_model_data) ∧
    ({ g0 with time_model_data := [] } : Adapter).valid_configuration = true := by
  refine ⟨(assignment_checks_only_assigned_field g0).1 [], rfl, by decide, rfl⟩
